import Mathlib

/-!
# Verification of `static/js/search_form.js` (mailarch dynamic query builder)

Shallow embedding of the jQuery search-form script.  The DOM state that the
script reads and writes is modelled explicitly:

* each `div.query_chunk` / `div.not_chunk` element is a `Chunk`, carrying the
  numeric index embedded in its `id` attribute (`query_chunk_<n>` /
  `not_chunk_<n>`), the value of its child `select` (the field), the value of
  its child `input` (the keyword), and whether it has the CSS class
  `removable`;
* the whole form is a `FormState`: the two chunk lists in DOM (display) order,
  the value of the `#id_operator` select, and the value of the hidden `#id_q`
  output field.

Each event handler of the script becomes a state-transition function, and a
small operation language `Op` with `run` gives traces of user interactions
starting from the initial form.
-/

/-- One clause row (`div.query_chunk` or `div.not_chunk`).
`idx` is the numeric index embedded in the row identifier; `field` is the
child select's value, `value` the child input's (keyword) value, `removable`
whether the row carries the CSS class `removable`. -/
structure Chunk where
  idx : Nat
  field : String
  value : String
  removable : Bool
deriving DecidableEq, Repr

/-- The form state the script manipulates: the `.query_chunk` list (include
clauses) and `.not_chunk` list (exclude clauses) in DOM order, the
`#id_operator` combinator value and the `#id_q` compiled-query field. -/
structure FormState where
  query_chunks : List Chunk
  not_chunks : List Chunk
  operator : String
  q : String
deriving DecidableEq, Repr

/-- A piece of a substitution template: literal text or a `\x7b...\x7d`
variable reference. -/
inductive TplPart where
  | lit (s : String)
  | var (v : String)
deriving DecidableEq, Repr

/-- `jQuery.substitute(str, sub)`: replaces every `\x7b...\x7d` occurrence in
the template by the corresponding entry of `sub`, leaving the occurrence
verbatim when the name is not a key of `sub` (the `$1 in sub ? sub[$1] : $0`
branch).  Replacement results are not rescanned, exactly as with
`String.prototype.replace`. -/
def substitute (tpl : List TplPart) (sub : List (String × String)) : String :=
  String.join (tpl.map (fun p =>
    match p with
    | TplPart.lit s => s
    | TplPart.var v =>
      match sub.lookup v with
      | some x => x
      | none => "\x7b" ++ v ++ "\x7d"))

/-- `part_pattern = "\x7bparam\x7d:\x7bkeyword\x7d"` from `build_query`. -/
def part_pattern : List TplPart :=
  [TplPart.var "param", TplPart.lit ":", TplPart.var "keyword"]

/-- `not_pattern = "-\x7bparam\x7d:\x7bkeyword\x7d"` from `build_query`. -/
def not_pattern : List TplPart :=
  [TplPart.lit "-", TplPart.var "param", TplPart.lit ":", TplPart.var "keyword"]

/-- `Array.prototype.join(sep)`: the empty string on an empty array, the sole
element on a singleton, and the elements interleaved with `sep` otherwise. -/
def join_sep (sep : String) : List String → String
  | [] => ""
  | [x] => x
  | x :: y :: xs => x ++ sep ++ join_sep sep (y :: xs)

/-- The token pushed onto `operands` for one include chunk:
`jQuery.substitute(part_pattern, \x7bparam: select val, keyword: input val\x7d)`. -/
def part_token (c : Chunk) : String :=
  substitute part_pattern [("param", c.field), ("keyword", c.value)]

/-- The token pushed onto `not_operands` for one exclude chunk, via
`not_pattern`. -/
def not_token (c : Chunk) : String :=
  substitute not_pattern [("param", c.field), ("keyword", c.value)]

/-- The `operands` array built by the `$('.query_chunk').each` loop of
`build_query`: one formatted token per chunk whose input value is non-empty,
in DOM order. -/
def query_operands (l : List Chunk) : List String :=
  (l.filter (fun c => c.value ≠ "")).map part_token

/-- The `not_operands` array built by the `$('.not_chunk').each` loop of
`build_query`. -/
def not_operands (l : List Chunk) : List String :=
  (l.filter (fun c => c.value ≠ "")).map not_token

/-- `build_query` (lines 10-50): joins the include tokens with
`' ' + op_value + ' '`, then, when `not_operands` is non-empty, appends a
separating space (only when the string so far is non-empty) followed by the
exclude tokens joined with `' '`.  The caller writes the result into `#id_q`
(`$('#id_q').val(query_string)` overwrites the field). -/
def build_query (s : FormState) : String :=
  let query_string := join_sep (" " ++ s.operator ++ " ") (query_operands s.query_chunks)
  if (not_operands s.not_chunks).length > 0 then
    (if query_string ≠ "" then query_string ++ " " else query_string)
      ++ join_sep " " (not_operands s.not_chunks)
  else query_string

/-- `increment_ids(el)` (lines 52-65): reads the numeric suffix of the
element's id (`split('_')[2]` of `query_chunk_<n>` / `not_chunk_<n>`), adds 1
and writes it back into the div id and the children ids/names (the
`replace(from, to)` calls rewrite exactly the embedded number, since the
digits occur nowhere earlier in those identifiers).  On the embedded index
this is an increment. -/
def increment_ids (c : Chunk) : Chunk :=
  { c with idx := c.idx + 1 }

/-- `$('div#query_chunk_' + i).remove()`: removes the first chunk whose
embedded index is `i` (an id selector matches at most one element), or
nothing when no chunk has that index. -/
def remove_by_id : List Chunk → Nat → List Chunk
  | [], _ => []
  | c :: cs, i => if c.idx = i then cs else c :: remove_by_id cs i

/-- `$('.query_chunk:first').removeClass('removable')`: strips the class from
the first chunk of the list. -/
def removeClass_first : List Chunk → List Chunk
  | [] => []
  | c :: cs => { c with removable := false } :: cs

/-- `$('.query_chunk:first').addClass('removable')`: adds the class to the
first chunk of the list. -/
def addClass_first : List Chunk → List Chunk
  | [] => []
  | c :: cs => { c with removable := true } :: cs

/-- The `a.remove_btn` click handler (lines 74-81): removes
`div#query_chunk_<i>`, strips `removable` from the first remaining chunk when
exactly one remains, then calls `build_query()`, which rewrites `#id_q`. -/
def remove_btn_click (s : FormState) (i : Nat) : FormState :=
  let qs := remove_by_id s.query_chunks i
  let qs := if qs.length = 1 then removeClass_first qs else qs
  let s1 : FormState := { s with query_chunks := qs }
  { s1 with q := build_query s1 }

/-- The `a.not_remove_btn` click handler (lines 83-90): removes
`div#not_chunk_<i>` and strips `removable` from the first remaining chunk when
exactly one remains.  It does NOT call `build_query()`. -/
def not_remove_btn_click (s : FormState) (i : Nat) : FormState :=
  let ns := remove_by_id s.not_chunks i
  let ns := if ns.length = 1 then removeClass_first ns else ns
  { s with not_chunks := ns }

/-- The `#add_query_part` click handler (lines 92-100): marks the first chunk
`removable`, clones the last chunk (with its handlers and classes), blanks the
clone's input, inserts it after the last chunk and increments its embedded
ids.  With no chunk present nothing is inserted (the clone of an empty
selection is empty and the id lookup in `increment_ids` has nothing to read),
and `#id_q` is never touched.  The handler does not call `build_query()`. -/
def add_query_part_click (s : FormState) : FormState :=
  let qs := addClass_first s.query_chunks
  match qs.getLast? with
  | none => { s with query_chunks := qs }
  | some lastC =>
    { s with query_chunks := qs ++ [increment_ids { lastC with value := "" }] }

/-- The `#add_not_part` click handler (lines 102-109): same as
`add_query_part_click` on the `.not_chunk` list.  It does not call
`build_query()` either. -/
def add_not_part_click (s : FormState) : FormState :=
  let ns := addClass_first s.not_chunks
  match ns.getLast? with
  | none => { s with not_chunks := ns }
  | some lastC =>
    { s with not_chunks := ns ++ [increment_ids { lastC with value := "" }] }

/-- Writes `v` into the keyword input of the chunk with embedded index `i`. -/
def set_value_at (l : List Chunk) (i : Nat) (v : String) : List Chunk :=
  l.map (fun c => if c.idx = i then { c with value := v } else c)

/-- Writes `v` into the field select of the chunk with embedded index `i`. -/
def set_field_at (l : List Chunk) (i : Nat) (v : String) : List Chunk :=
  l.map (fun c => if c.idx = i then { c with field := v } else c)

/-- A `keyup`/`change` edit of an include keyword input: the control's value
changes and the bound `build_query` handler (bound on row 0 at `init` and
propagated to every row by `clone(true)`) rewrites `#id_q`. -/
def edit_query_value (s : FormState) (i : Nat) (v : String) : FormState :=
  let s1 : FormState := { s with query_chunks := set_value_at s.query_chunks i v }
  { s1 with q := build_query s1 }

/-- A `change` edit of an include field select, followed by the bound
`build_query`. -/
def edit_query_field (s : FormState) (i : Nat) (v : String) : FormState :=
  let s1 : FormState := { s with query_chunks := set_field_at s.query_chunks i v }
  { s1 with q := build_query s1 }

/-- A `keyup`/`change` edit of an exclude keyword input, followed by the bound
`build_query`. -/
def edit_not_value (s : FormState) (i : Nat) (v : String) : FormState :=
  let s1 : FormState := { s with not_chunks := set_value_at s.not_chunks i v }
  { s1 with q := build_query s1 }

/-- A `change` edit of an exclude field select, followed by the bound
`build_query`. -/
def edit_not_field (s : FormState) (i : Nat) (v : String) : FormState :=
  let s1 : FormState := { s with not_chunks := set_field_at s.not_chunks i v }
  { s1 with q := build_query s1 }

/-- One user interaction with the form. -/
inductive Op where
  | addQuery
  | addNot
  | removeQuery (i : Nat)
  | removeNot (i : Nat)
  | setQueryValue (i : Nat) (v : String)
  | setQueryField (i : Nat) (v : String)
  | setNotValue (i : Nat) (v : String)
  | setNotField (i : Nat) (v : String)
deriving DecidableEq, Repr

/-- Dispatch of one interaction to its handler. -/
def step (s : FormState) : Op → FormState
  | Op.addQuery => add_query_part_click s
  | Op.addNot => add_not_part_click s
  | Op.removeQuery i => remove_btn_click s i
  | Op.removeNot i => not_remove_btn_click s i
  | Op.setQueryValue i v => edit_query_value s i v
  | Op.setQueryField i v => edit_query_field s i v
  | Op.setNotValue i v => edit_not_value s i v
  | Op.setNotField i v => edit_not_field s i v

/-- Runs a sequence of interactions left to right. -/
def run (s : FormState) : List Op → FormState
  | [] => s
  | op :: ops => run (step s op) ops

/-- Modelled from the spec: the initial markup is not part of the script.  On
load exactly one include row and one exclude row exist, both with empty
keyword and index 0, neither removable (a size-1 collection is never
removable), the combinator select defaults to `AND`, and the hidden `#id_q`
field is empty.  The concrete field identifiers are opaque strings. -/
def init_state : FormState :=
  { query_chunks := [{ idx := 0, field := "subject", value := "", removable := false }]
    not_chunks := [{ idx := 0, field := "subject", value := "", removable := false }]
    operator := "AND"
    q := "" }

/-- Data a chunk contributes to compilation: its field and keyword.  The
embedded index and the `removable` class are invisible to `build_query`. -/
def chunkData (c : Chunk) : String × String :=
  (c.field, c.value)

/-- Spec step 1, stated from the spec's words: filter the include clauses to
those with non-empty keyword, format each as `<field>:<keyword>`, join with
a single space, the combinator token, and a single space. -/
def includePart_spec (s : FormState) : String :=
  join_sep (" " ++ s.operator ++ " ")
    ((s.query_chunks.filter (fun c => c.value ≠ "")).map (fun c => c.field ++ ":" ++ c.value))

/-- Spec step 2, stated from the spec's words: filter the exclude clauses to
those with non-empty keyword, format each as `-<field>:<keyword>`, join with
a single space regardless of the combinator. -/
def excludePart_spec (s : FormState) : String :=
  join_sep " "
    ((s.not_chunks.filter (fun c => c.value ≠ "")).map (fun c => "-" ++ c.field ++ ":" ++ c.value))

/-- Spec step 3, stated from the spec's words: the compiled query is the
include part, extended by a space and the exclude part when the latter is
non-empty, or the exclude part alone when the include part is empty. -/
def compile_spec (s : FormState) : String :=
  if excludePart_spec s ≠ "" then
    (if includePart_spec s ≠ "" then includePart_spec s ++ " " ++ excludePart_spec s
     else excludePart_spec s)
  else includePart_spec s

/-- The index list of a collection is strictly increasing in display order. -/
def sortedIdx (l : List Chunk) : Prop :=
  List.Pairwise (fun a b : Chunk => a.idx < b.idx) l

instance (l : List Chunk) : Decidable (sortedIdx l) :=
  l.instDecidablePairwise

/-- The index list of a collection is exactly `0..length-1` in display
order. -/
def denseIdx (l : List Chunk) : Prop :=
  l.map (fun c => c.idx) = List.range l.length

instance (l : List Chunk) : Decidable (denseIdx l) := by
  unfold denseIdx; infer_instance

/-- A size-1 collection's sole row does not carry the `removable` class. -/
def okSize1 (l : List Chunk) : Prop :=
  l.length = 1 → ∀ c ∈ l, c.removable = false

instance (l : List Chunk) : Decidable (okSize1 l) := by
  unfold okSize1; infer_instance

/-- An operation is a structural removal. -/
def isRemoveOp : Op → Bool
  | Op.removeQuery _ => true
  | Op.removeNot _ => true
  | _ => false

/-- The trace contains a structural removal. -/
def hasRemove (ops : List Op) : Bool :=
  ops.any isRemoveOp

/-- The UI exposes a remove trigger only on rows carrying the `removable`
class, so a click is possible only there; add and edit interactions are always
possible. -/
def okOpB (s : FormState) : Op → Bool
  | Op.removeQuery i => s.query_chunks.any (fun c => c.idx = i && c.removable)
  | Op.removeNot i => s.not_chunks.any (fun c => c.idx = i && c.removable)
  | _ => true

/-- Every interaction of the trace is possible in the state it is issued in
(removals only through exposed, `removable`-class triggers). -/
def okRunB (s : FormState) : List Op → Bool
  | [] => true
  | op :: ops => okOpB s op && okRunB (step s op) ops

theorem part_token_eq (c : Chunk) : part_token c = c.field ++ ":" ++ c.value := by
  simp [part_token, substitute, part_pattern, String.join, List.lookup]

theorem not_token_eq (c : Chunk) : not_token c = "-" ++ c.field ++ ":" ++ c.value := by
  simp [not_token, substitute, not_pattern, String.join, List.lookup]

theorem string_eq_empty_of_length_eq_zero {s : String} (h : s.length = 0) : s = "" := by
  cases s with
  | mk data =>
    simp [String.length] at h
    simp [h]

theorem append_ne_empty_left {s t : String} (h : s ≠ "") : s ++ t ≠ "" := by
  intro hc
  apply h
  apply string_eq_empty_of_length_eq_zero
  have hl := congrArg String.length hc
  rw [String.length_append] at hl
  simp at hl
  omega

theorem join_sep_cons_ne_empty (sep x : String) (l : List String) (hx : x ≠ "") :
    join_sep sep (x :: l) ≠ "" := by
  cases l with
  | nil => simpa [join_sep] using hx
  | cons y ys =>
    simp only [join_sep]
    rw [String.append_assoc]
    exact append_ne_empty_left hx

theorem query_operands_nil : query_operands [] = [] := rfl

theorem query_operands_cons (c : Chunk) (cs : List Chunk) :
    query_operands (c :: cs) =
      (if c.value = "" then [] else [part_token c]) ++ query_operands cs := by
  by_cases h : c.value = "" <;> simp [query_operands, List.filter_cons, h]

theorem not_operands_cons (c : Chunk) (cs : List Chunk) :
    not_operands (c :: cs) =
      (if c.value = "" then [] else [not_token c]) ++ not_operands cs := by
  by_cases h : c.value = "" <;> simp [not_operands, List.filter_cons, h]

theorem part_token_congr {c c' : Chunk} (h : chunkData c = chunkData c') :
    part_token c = part_token c' := by
  have hf : c.field = c'.field := congrArg Prod.fst h
  have hv : c.value = c'.value := congrArg Prod.snd h
  simp [part_token, hf, hv]

theorem not_token_congr {c c' : Chunk} (h : chunkData c = chunkData c') :
    not_token c = not_token c' := by
  have hf : c.field = c'.field := congrArg Prod.fst h
  have hv : c.value = c'.value := congrArg Prod.snd h
  simp [not_token, hf, hv]

theorem query_operands_congr :
    ∀ {l l' : List Chunk}, l.map chunkData = l'.map chunkData →
      query_operands l = query_operands l'
  | [], [], _ => rfl
  | [], _ :: _, h => by simp at h
  | _ :: _, [], h => by simp at h
  | c :: cs, c' :: cs', h => by
    rw [List.map_cons, List.map_cons] at h
    have hd : chunkData c = chunkData c' := (List.cons.injEq _ _ _ _ ▸ h).1
    have ht := (List.cons.injEq _ _ _ _ ▸ h).2
    have hv : c.value = c'.value := congrArg Prod.snd hd
    rw [query_operands_cons, query_operands_cons, hv, part_token_congr hd,
      query_operands_congr ht]

theorem not_operands_congr :
    ∀ {l l' : List Chunk}, l.map chunkData = l'.map chunkData →
      not_operands l = not_operands l'
  | [], [], _ => rfl
  | [], _ :: _, h => by simp at h
  | _ :: _, [], h => by simp at h
  | c :: cs, c' :: cs', h => by
    rw [List.map_cons, List.map_cons] at h
    have hd : chunkData c = chunkData c' := (List.cons.injEq _ _ _ _ ▸ h).1
    have ht := (List.cons.injEq _ _ _ _ ▸ h).2
    have hv : c.value = c'.value := congrArg Prod.snd hd
    rw [not_operands_cons, not_operands_cons, hv, not_token_congr hd,
      not_operands_congr ht]

theorem build_query_congr {s s' : FormState}
    (hq : s.query_chunks.map chunkData = s'.query_chunks.map chunkData)
    (hn : s.not_chunks.map chunkData = s'.not_chunks.map chunkData)
    (hop : s.operator = s'.operator) :
    build_query s = build_query s' := by
  unfold build_query
  rw [query_operands_congr hq, not_operands_congr hn, hop]

theorem map_chunkData_removeClass_first (l : List Chunk) :
    (removeClass_first l).map chunkData = l.map chunkData := by
  cases l <;> simp [removeClass_first, chunkData]

theorem map_chunkData_addClass_first (l : List Chunk) :
    (addClass_first l).map chunkData = l.map chunkData := by
  cases l <;> simp [addClass_first, chunkData]

theorem map_idx_removeClass_first (l : List Chunk) :
    (removeClass_first l).map (fun c => c.idx) = l.map (fun c => c.idx) := by
  cases l <;> simp [removeClass_first]

theorem map_idx_addClass_first (l : List Chunk) :
    (addClass_first l).map (fun c => c.idx) = l.map (fun c => c.idx) := by
  cases l <;> simp [addClass_first]

theorem length_removeClass_first (l : List Chunk) :
    (removeClass_first l).length = l.length := by
  cases l <;> simp [removeClass_first]

theorem length_addClass_first (l : List Chunk) :
    (addClass_first l).length = l.length := by
  cases l <;> simp [addClass_first]

theorem remove_by_id_sublist (l : List Chunk) (i : Nat) :
    (remove_by_id l i).Sublist l := by
  induction l with
  | nil => simp [remove_by_id]
  | cons c cs ih =>
    simp only [remove_by_id]
    by_cases h : c.idx = i
    · rw [if_pos h]
      exact List.sublist_cons_self c cs
    · rw [if_neg h]
      exact List.Sublist.cons₂ c ih

theorem remove_by_id_of_not_mem {l : List Chunk} {i : Nat}
    (h : i ∉ l.map (fun c => c.idx)) : remove_by_id l i = l := by
  induction l with
  | nil => rfl
  | cons c cs ih =>
    simp only [List.map_cons, List.mem_cons] at h
    push_neg at h
    simp only [remove_by_id]
    rw [if_neg (fun hc => h.1 hc.symm), ih h.2]

theorem length_remove_by_id_ge (l : List Chunk) (i : Nat) :
    l.length ≤ (remove_by_id l i).length + 1 := by
  induction l with
  | nil => simp [remove_by_id]
  | cons c cs ih =>
    simp only [remove_by_id]
    by_cases h : c.idx = i
    · simp [h]
    · simp only [h, if_false, List.length_cons]
      omega

theorem map_idx_set_value_at (l : List Chunk) (i : Nat) (v : String) :
    (set_value_at l i v).map (fun c => c.idx) = l.map (fun c => c.idx) := by
  simp only [set_value_at, List.map_map]
  apply List.map_congr_left
  intro c _
  by_cases h : c.idx = i <;> simp [h]

theorem map_idx_set_field_at (l : List Chunk) (i : Nat) (v : String) :
    (set_field_at l i v).map (fun c => c.idx) = l.map (fun c => c.idx) := by
  simp only [set_field_at, List.map_map]
  apply List.map_congr_left
  intro c _
  by_cases h : c.idx = i <;> simp [h]

theorem length_set_value_at (l : List Chunk) (i : Nat) (v : String) :
    (set_value_at l i v).length = l.length := by
  simp [set_value_at]

theorem length_set_field_at (l : List Chunk) (i : Nat) (v : String) :
    (set_field_at l i v).length = l.length := by
  simp [set_field_at]

theorem sortedIdx_iff (l : List Chunk) :
    sortedIdx l ↔ List.Pairwise (fun a b : Nat => a < b) (l.map (fun c => c.idx)) := by
  rw [sortedIdx, List.pairwise_map]

theorem sortedIdx_of_map_idx_eq {l l' : List Chunk}
    (h : l'.map (fun c => c.idx) = l.map (fun c => c.idx)) (hs : sortedIdx l) :
    sortedIdx l' := by
  rw [sortedIdx_iff] at hs ⊢
  rw [h]
  exact hs

theorem le_getLast_of_pairwise_lt :
    ∀ {l : List Nat} {x : Nat}, List.Pairwise (fun a b : Nat => a < b) l →
      l.getLast? = some x → ∀ a ∈ l, a ≤ x
  | [], _, _, hl, _, ha => by simp at ha
  | [c], x, hp, hl, a, ha => by
    simp at hl ha
    omega
  | c :: c₂ :: cs, x, hp, hl, a, ha => by
    rw [List.getLast?_cons_cons] at hl
    rw [List.pairwise_cons] at hp
    rcases List.mem_cons.mp ha with rfl | ha'
    · have hx : x ∈ c₂ :: cs := List.mem_of_mem_getLast? (by rw [hl]; rfl)
      exact Nat.le_of_lt (hp.1 x hx)
    · exact le_getLast_of_pairwise_lt hp.2 hl a ha'

theorem sortedIdx_append_getLast {l : List Chunk} {lastC c : Chunk}
    (h : sortedIdx l) (hl : l.getLast? = some lastC) (hc : lastC.idx < c.idx) :
    sortedIdx (l ++ [c]) := by
  rw [sortedIdx, List.pairwise_append]
  refine ⟨h, by simp, ?_⟩
  intro a ha b hb
  rw [List.mem_singleton] at hb
  subst hb
  have hmap : (l.map (fun c => c.idx)).getLast? = some lastC.idx := by
    rw [List.getLast?_map, hl]
    rfl
  have := le_getLast_of_pairwise_lt ((sortedIdx_iff l).mp h) hmap a.idx
    (List.mem_map_of_mem _ ha)
  omega

theorem sortedIdx_remove_by_id {l : List Chunk} (i : Nat) (h : sortedIdx l) :
    sortedIdx (remove_by_id l i) :=
  List.Pairwise.sublist (remove_by_id_sublist l i) h

theorem query_operands_append (l₁ l₂ : List Chunk) :
    query_operands (l₁ ++ l₂) = query_operands l₁ ++ query_operands l₂ := by
  simp [query_operands, List.filter_append]

theorem not_operands_append (l₁ l₂ : List Chunk) :
    not_operands (l₁ ++ l₂) = not_operands l₁ ++ not_operands l₂ := by
  simp [not_operands, List.filter_append]

theorem build_query_q_irrel (s : FormState) (v : String) :
    build_query { s with q := v } = build_query s := rfl

theorem add_query_part_click_q (s : FormState) :
    (add_query_part_click s).q = s.q := by
  unfold add_query_part_click
  cases h : (addClass_first s.query_chunks).getLast? <;> simp [h]

theorem add_query_part_click_not_chunks (s : FormState) :
    (add_query_part_click s).not_chunks = s.not_chunks := by
  unfold add_query_part_click
  cases h : (addClass_first s.query_chunks).getLast? <;> simp [h]

theorem add_query_part_click_operator (s : FormState) :
    (add_query_part_click s).operator = s.operator := by
  unfold add_query_part_click
  cases h : (addClass_first s.query_chunks).getLast? <;> simp [h]

theorem add_not_part_click_q (s : FormState) :
    (add_not_part_click s).q = s.q := by
  unfold add_not_part_click
  cases h : (addClass_first s.not_chunks).getLast? <;> simp [h]

theorem add_not_part_click_query_chunks (s : FormState) :
    (add_not_part_click s).query_chunks = s.query_chunks := by
  unfold add_not_part_click
  cases h : (addClass_first s.not_chunks).getLast? <;> simp [h]

theorem add_not_part_click_operator (s : FormState) :
    (add_not_part_click s).operator = s.operator := by
  unfold add_not_part_click
  cases h : (addClass_first s.not_chunks).getLast? <;> simp [h]

theorem add_query_part_click_query_chunks (s : FormState) :
    (add_query_part_click s).query_chunks =
      match (addClass_first s.query_chunks).getLast? with
      | none => addClass_first s.query_chunks
      | some lastC =>
        addClass_first s.query_chunks ++ [increment_ids { lastC with value := "" }] := by
  unfold add_query_part_click
  cases h : (addClass_first s.query_chunks).getLast? <;> simp [h]

theorem add_not_part_click_not_chunks (s : FormState) :
    (add_not_part_click s).not_chunks =
      match (addClass_first s.not_chunks).getLast? with
      | none => addClass_first s.not_chunks
      | some lastC =>
        addClass_first s.not_chunks ++ [increment_ids { lastC with value := "" }] := by
  unfold add_not_part_click
  cases h : (addClass_first s.not_chunks).getLast? <;> simp [h]

theorem query_operands_add_query (s : FormState) :
    query_operands (add_query_part_click s).query_chunks =
      query_operands s.query_chunks := by
  rw [add_query_part_click_query_chunks]
  cases h : (addClass_first s.query_chunks).getLast? with
  | none => exact query_operands_congr (map_chunkData_addClass_first s.query_chunks)
  | some lastC =>
    rw [query_operands_append]
    have h2 : query_operands [increment_ids { lastC with value := "" }] = [] := rfl
    rw [h2, List.append_nil]
    exact query_operands_congr (map_chunkData_addClass_first s.query_chunks)

theorem not_operands_add_not (s : FormState) :
    not_operands (add_not_part_click s).not_chunks =
      not_operands s.not_chunks := by
  rw [add_not_part_click_not_chunks]
  cases h : (addClass_first s.not_chunks).getLast? with
  | none => exact not_operands_congr (map_chunkData_addClass_first s.not_chunks)
  | some lastC =>
    rw [not_operands_append]
    have h2 : not_operands [increment_ids { lastC with value := "" }] = [] := rfl
    rw [h2, List.append_nil]
    exact not_operands_congr (map_chunkData_addClass_first s.not_chunks)

theorem build_query_add_query (s : FormState) :
    build_query (add_query_part_click s) = build_query s := by
  unfold build_query
  rw [query_operands_add_query, add_query_part_click_not_chunks,
    add_query_part_click_operator]

theorem build_query_add_not (s : FormState) :
    build_query (add_not_part_click s) = build_query s := by
  unfold build_query
  rw [not_operands_add_not, add_not_part_click_query_chunks,
    add_not_part_click_operator]

theorem remove_btn_click_query_chunks (s : FormState) (i : Nat) :
    (remove_btn_click s i).query_chunks =
      (if (remove_by_id s.query_chunks i).length = 1 then
        removeClass_first (remove_by_id s.query_chunks i)
      else remove_by_id s.query_chunks i) := rfl

theorem remove_btn_click_not_chunks (s : FormState) (i : Nat) :
    (remove_btn_click s i).not_chunks = s.not_chunks := rfl

theorem remove_btn_click_operator (s : FormState) (i : Nat) :
    (remove_btn_click s i).operator = s.operator := rfl

theorem remove_btn_click_q_sync (s : FormState) (i : Nat) :
    (remove_btn_click s i).q = build_query (remove_btn_click s i) := rfl

theorem not_remove_btn_click_not_chunks (s : FormState) (i : Nat) :
    (not_remove_btn_click s i).not_chunks =
      (if (remove_by_id s.not_chunks i).length = 1 then
        removeClass_first (remove_by_id s.not_chunks i)
      else remove_by_id s.not_chunks i) := rfl

theorem not_remove_btn_click_query_chunks (s : FormState) (i : Nat) :
    (not_remove_btn_click s i).query_chunks = s.query_chunks := rfl

theorem not_remove_btn_click_operator (s : FormState) (i : Nat) :
    (not_remove_btn_click s i).operator = s.operator := rfl

theorem not_remove_btn_click_q (s : FormState) (i : Nat) :
    (not_remove_btn_click s i).q = s.q := rfl

theorem edit_query_value_q_sync (s : FormState) (i : Nat) (v : String) :
    (edit_query_value s i v).q = build_query (edit_query_value s i v) := rfl

theorem edit_query_field_q_sync (s : FormState) (i : Nat) (v : String) :
    (edit_query_field s i v).q = build_query (edit_query_field s i v) := rfl

theorem edit_not_value_q_sync (s : FormState) (i : Nat) (v : String) :
    (edit_not_value s i v).q = build_query (edit_not_value s i v) := rfl

theorem edit_not_field_q_sync (s : FormState) (i : Nat) (v : String) :
    (edit_not_field s i v).q = build_query (edit_not_field s i v) := rfl

theorem okSize1_removeClass_first (l : List Chunk) : okSize1 (removeClass_first l) := by
  intro h c hc
  cases l with
  | nil => simp [removeClass_first] at hc
  | cons a as =>
    simp only [removeClass_first, List.length_cons] at h hc
    have : as = [] := List.eq_nil_of_length_eq_zero (by omega)
    subst this
    simp at hc
    rw [hc]

theorem okSize1_of_length_ne_one {l : List Chunk} (h : l.length ≠ 1) : okSize1 l :=
  fun h1 => absurd h1 h

theorem removable_mem_set_value_at {l : List Chunk} {i : Nat} {v : String} {c : Chunk}
    (hc : c ∈ set_value_at l i v) :
    ∃ a ∈ l, c.removable = a.removable := by
  simp only [set_value_at, List.mem_map] at hc
  obtain ⟨a, ha, hac⟩ := hc
  refine ⟨a, ha, ?_⟩
  by_cases h : a.idx = i <;> simp [h] at hac <;> rw [← hac]

theorem removable_mem_set_field_at {l : List Chunk} {i : Nat} {v : String} {c : Chunk}
    (hc : c ∈ set_field_at l i v) :
    ∃ a ∈ l, c.removable = a.removable := by
  simp only [set_field_at, List.mem_map] at hc
  obtain ⟨a, ha, hac⟩ := hc
  refine ⟨a, ha, ?_⟩
  by_cases h : a.idx = i <;> simp [h] at hac <;> rw [← hac]

theorem okSize1_set_value_at {l : List Chunk} (i : Nat) (v : String) (h : okSize1 l) :
    okSize1 (set_value_at l i v) := by
  intro h1 c hc
  rw [length_set_value_at] at h1
  obtain ⟨a, ha, hr⟩ := removable_mem_set_value_at hc
  rw [hr]
  exact h h1 a ha

theorem okSize1_set_field_at {l : List Chunk} (i : Nat) (v : String) (h : okSize1 l) :
    okSize1 (set_field_at l i v) := by
  intro h1 c hc
  rw [length_set_field_at] at h1
  obtain ⟨a, ha, hr⟩ := removable_mem_set_field_at hc
  rw [hr]
  exact h h1 a ha

/-- Both collections' index lists are strictly increasing in display order. -/
def SortedInv (s : FormState) : Prop :=
  sortedIdx s.query_chunks ∧ sortedIdx s.not_chunks

/-- Both collections are dense (`0..length-1`) and non-empty. -/
def DenseInv (s : FormState) : Prop :=
  denseIdx s.query_chunks ∧ denseIdx s.not_chunks ∧
    1 ≤ s.query_chunks.length ∧ 1 ≤ s.not_chunks.length

/-- Both collections are non-empty and a size-1 collection's row is never
marked `removable`. -/
def MinInv (s : FormState) : Prop :=
  1 ≤ s.query_chunks.length ∧ 1 ≤ s.not_chunks.length ∧
    okSize1 s.query_chunks ∧ okSize1 s.not_chunks

theorem sortedIdx_addClass_first {l : List Chunk} (h : sortedIdx l) :
    sortedIdx (addClass_first l) :=
  sortedIdx_of_map_idx_eq (map_idx_addClass_first l) h

theorem sortedIdx_removeClass_first {l : List Chunk} (h : sortedIdx l) :
    sortedIdx (removeClass_first l) :=
  sortedIdx_of_map_idx_eq (map_idx_removeClass_first l) h

theorem sortedIdx_add_query (s : FormState) (h : sortedIdx s.query_chunks) :
    sortedIdx (add_query_part_click s).query_chunks := by
  rw [add_query_part_click_query_chunks]
  cases hL : (addClass_first s.query_chunks).getLast? with
  | none => exact sortedIdx_addClass_first h
  | some lastC =>
    exact sortedIdx_append_getLast (sortedIdx_addClass_first h) hL
      (Nat.lt_succ_self lastC.idx)

theorem sortedIdx_add_not (s : FormState) (h : sortedIdx s.not_chunks) :
    sortedIdx (add_not_part_click s).not_chunks := by
  rw [add_not_part_click_not_chunks]
  cases hL : (addClass_first s.not_chunks).getLast? with
  | none => exact sortedIdx_addClass_first h
  | some lastC =>
    exact sortedIdx_append_getLast (sortedIdx_addClass_first h) hL
      (Nat.lt_succ_self lastC.idx)

theorem sortedIdx_remove_btn (s : FormState) (i : Nat) (h : sortedIdx s.query_chunks) :
    sortedIdx (remove_btn_click s i).query_chunks := by
  rw [remove_btn_click_query_chunks]
  by_cases hl : (remove_by_id s.query_chunks i).length = 1
  · rw [if_pos hl]
    exact sortedIdx_removeClass_first (sortedIdx_remove_by_id i h)
  · rw [if_neg hl]
    exact sortedIdx_remove_by_id i h

theorem sortedIdx_not_remove_btn (s : FormState) (i : Nat) (h : sortedIdx s.not_chunks) :
    sortedIdx (not_remove_btn_click s i).not_chunks := by
  rw [not_remove_btn_click_not_chunks]
  by_cases hl : (remove_by_id s.not_chunks i).length = 1
  · rw [if_pos hl]
    exact sortedIdx_removeClass_first (sortedIdx_remove_by_id i h)
  · rw [if_neg hl]
    exact sortedIdx_remove_by_id i h

theorem step_sortedInv (s : FormState) (op : Op) (h : SortedInv s) :
    SortedInv (step s op) := by
  obtain ⟨hq, hn⟩ := h
  cases op with
  | addQuery =>
    exact ⟨sortedIdx_add_query s hq, by rw [step, add_query_part_click_not_chunks]; exact hn⟩
  | addNot =>
    exact ⟨by rw [step, add_not_part_click_query_chunks]; exact hq, sortedIdx_add_not s hn⟩
  | removeQuery i =>
    exact ⟨sortedIdx_remove_btn s i hq, by rw [step, remove_btn_click_not_chunks]; exact hn⟩
  | removeNot i =>
    exact ⟨by rw [step, not_remove_btn_click_query_chunks]; exact hq,
      sortedIdx_not_remove_btn s i hn⟩
  | setQueryValue i v =>
    exact ⟨sortedIdx_of_map_idx_eq (map_idx_set_value_at s.query_chunks i v) hq, hn⟩
  | setQueryField i v =>
    exact ⟨sortedIdx_of_map_idx_eq (map_idx_set_field_at s.query_chunks i v) hq, hn⟩
  | setNotValue i v =>
    exact ⟨hq, sortedIdx_of_map_idx_eq (map_idx_set_value_at s.not_chunks i v) hn⟩
  | setNotField i v =>
    exact ⟨hq, sortedIdx_of_map_idx_eq (map_idx_set_field_at s.not_chunks i v) hn⟩

theorem run_sortedInv : ∀ (ops : List Op) (s : FormState), SortedInv s → SortedInv (run s ops)
  | [], _, h => h
  | op :: ops, s, h => run_sortedInv ops (step s op) (step_sortedInv s op h)

theorem denseIdx_of_maps {l l' : List Chunk}
    (hm : l'.map (fun c => c.idx) = l.map (fun c => c.idx))
    (hl : l'.length = l.length) (h : denseIdx l) : denseIdx l' := by
  rw [denseIdx, hm, hl]
  exact h

theorem add_query_chunks_of_dense {s : FormState}
    (hd : denseIdx s.query_chunks) (hne : 1 ≤ s.query_chunks.length) :
    denseIdx (add_query_part_click s).query_chunks ∧
      (add_query_part_click s).query_chunks.length = s.query_chunks.length + 1 := by
  obtain ⟨m, hm⟩ : ∃ m, s.query_chunks.length = m + 1 := by
    cases hn : s.query_chunks.length with
    | zero => omega
    | succ m => exact ⟨m, rfl⟩
  have hmap : (addClass_first s.query_chunks).map (fun c => c.idx) =
      s.query_chunks.map (fun c => c.idx) := map_idx_addClass_first s.query_chunks
  have hlen : (addClass_first s.query_chunks).length = s.query_chunks.length :=
    length_addClass_first s.query_chunks
  cases hL : (addClass_first s.query_chunks).getLast? with
  | none =>
    rw [List.getLast?_eq_none_iff] at hL
    rw [hL] at hlen
    simp at hlen
    omega
  | some lastC =>
    have hidx : lastC.idx = m := by
      have h1 : ((addClass_first s.query_chunks).map (fun c => c.idx)).getLast? =
          some lastC.idx := by
        rw [List.getLast?_map, hL]
        rfl
      rw [hmap, hd, hm, List.range_succ, List.getLast?_concat] at h1
      exact (Option.some.injEq _ _ ▸ h1).symm
    rw [add_query_part_click_query_chunks, hL]
    constructor
    · rw [denseIdx, List.map_append, hmap, hd, List.length_append, hlen, hm]
      have h2 : [increment_ids { lastC with value := "" }].map (fun c => c.idx) =
          [m + 1] := by simp [increment_ids, hidx]
      rw [h2, List.length_singleton, ← List.range_succ]
    · rw [List.length_append, hlen]
      rfl

theorem add_not_chunks_of_dense {s : FormState}
    (hd : denseIdx s.not_chunks) (hne : 1 ≤ s.not_chunks.length) :
    denseIdx (add_not_part_click s).not_chunks ∧
      (add_not_part_click s).not_chunks.length = s.not_chunks.length + 1 := by
  obtain ⟨m, hm⟩ : ∃ m, s.not_chunks.length = m + 1 := by
    cases hn : s.not_chunks.length with
    | zero => omega
    | succ m => exact ⟨m, rfl⟩
  have hmap : (addClass_first s.not_chunks).map (fun c => c.idx) =
      s.not_chunks.map (fun c => c.idx) := map_idx_addClass_first s.not_chunks
  have hlen : (addClass_first s.not_chunks).length = s.not_chunks.length :=
    length_addClass_first s.not_chunks
  cases hL : (addClass_first s.not_chunks).getLast? with
  | none =>
    rw [List.getLast?_eq_none_iff] at hL
    rw [hL] at hlen
    simp at hlen
    omega
  | some lastC =>
    have hidx : lastC.idx = m := by
      have h1 : ((addClass_first s.not_chunks).map (fun c => c.idx)).getLast? =
          some lastC.idx := by
        rw [List.getLast?_map, hL]
        rfl
      rw [hmap, hd, hm, List.range_succ, List.getLast?_concat] at h1
      exact (Option.some.injEq _ _ ▸ h1).symm
    rw [add_not_part_click_not_chunks, hL]
    constructor
    · rw [denseIdx, List.map_append, hmap, hd, List.length_append, hlen, hm]
      have h2 : [increment_ids { lastC with value := "" }].map (fun c => c.idx) =
          [m + 1] := by simp [increment_ids, hidx]
      rw [h2, List.length_singleton, ← List.range_succ]
    · rw [List.length_append, hlen]
      rfl

theorem step_denseInv (s : FormState) (op : Op) (hop : isRemoveOp op = false)
    (h : DenseInv s) : DenseInv (step s op) := by
  obtain ⟨hdq, hdn, hlq, hln⟩ := h
  cases op with
  | addQuery =>
    obtain ⟨hd, hl⟩ := add_query_chunks_of_dense hdq hlq
    show DenseInv (add_query_part_click s)
    exact ⟨hd, by rw [add_query_part_click_not_chunks]; exact hdn, by omega,
      by rw [add_query_part_click_not_chunks]; exact hln⟩
  | addNot =>
    obtain ⟨hd, hl⟩ := add_not_chunks_of_dense hdn hln
    show DenseInv (add_not_part_click s)
    exact ⟨by rw [add_not_part_click_query_chunks]; exact hdq, hd,
      by rw [add_not_part_click_query_chunks]; exact hlq, by omega⟩
  | removeQuery i => simp [isRemoveOp] at hop
  | removeNot i => simp [isRemoveOp] at hop
  | setQueryValue i v =>
    refine ⟨denseIdx_of_maps (map_idx_set_value_at _ i v) (length_set_value_at _ i v) hdq,
      hdn, ?_, hln⟩
    rw [step]
    show 1 ≤ (set_value_at s.query_chunks i v).length
    rw [length_set_value_at]
    exact hlq
  | setQueryField i v =>
    refine ⟨denseIdx_of_maps (map_idx_set_field_at _ i v) (length_set_field_at _ i v) hdq,
      hdn, ?_, hln⟩
    rw [step]
    show 1 ≤ (set_field_at s.query_chunks i v).length
    rw [length_set_field_at]
    exact hlq
  | setNotValue i v =>
    refine ⟨hdq,
      denseIdx_of_maps (map_idx_set_value_at _ i v) (length_set_value_at _ i v) hdn,
      hlq, ?_⟩
    rw [step]
    show 1 ≤ (set_value_at s.not_chunks i v).length
    rw [length_set_value_at]
    exact hln
  | setNotField i v =>
    refine ⟨hdq,
      denseIdx_of_maps (map_idx_set_field_at _ i v) (length_set_field_at _ i v) hdn,
      hlq, ?_⟩
    rw [step]
    show 1 ≤ (set_field_at s.not_chunks i v).length
    rw [length_set_field_at]
    exact hln

theorem run_denseInv : ∀ (ops : List Op) (s : FormState), hasRemove ops = false →
    DenseInv s → DenseInv (run s ops)
  | [], _, _, h => h
  | op :: ops, s, hops, h => by
    rw [hasRemove, List.any_cons, Bool.or_eq_false_iff] at hops
    exact run_denseInv ops (step s op) hops.2 (step_denseInv s op hops.1 h)

theorem okOpB_removeQuery_elim {s : FormState} {i : Nat}
    (h : okOpB s (Op.removeQuery i) = true) :
    ∃ c ∈ s.query_chunks, c.idx = i ∧ c.removable = true := by
  rw [okOpB, List.any_eq_true] at h
  obtain ⟨c, hc, hp⟩ := h
  rw [Bool.and_eq_true, decide_eq_true_iff] at hp
  exact ⟨c, hc, hp.1, hp.2⟩

theorem okOpB_removeNot_elim {s : FormState} {i : Nat}
    (h : okOpB s (Op.removeNot i) = true) :
    ∃ c ∈ s.not_chunks, c.idx = i ∧ c.removable = true := by
  rw [okOpB, List.any_eq_true] at h
  obtain ⟨c, hc, hp⟩ := h
  rw [Bool.and_eq_true, decide_eq_true_iff] at hp
  exact ⟨c, hc, hp.1, hp.2⟩

theorem length_ge_two_of_removable {l : List Chunk}
    (hne : 1 ≤ l.length) (hok : okSize1 l)
    (hex : ∃ c ∈ l, c.idx = i ∧ c.removable = true) : 2 ≤ l.length := by
  obtain ⟨c, hc, _, hr⟩ := hex
  by_contra hlt
  have h1 : l.length = 1 := by omega
  have := hok h1 c hc
  rw [this] at hr
  exact Bool.false_ne_true hr

theorem length_add_query_of_ne {s : FormState} (hne : 1 ≤ s.query_chunks.length) :
    (add_query_part_click s).query_chunks.length = s.query_chunks.length + 1 := by
  rw [add_query_part_click_query_chunks]
  cases hL : (addClass_first s.query_chunks).getLast? with
  | none =>
    rw [List.getLast?_eq_none_iff] at hL
    have := congrArg List.length hL
    rw [length_addClass_first, List.length_nil] at this
    omega
  | some lastC =>
    rw [List.length_append, length_addClass_first]
    rfl

theorem length_add_not_of_ne {s : FormState} (hne : 1 ≤ s.not_chunks.length) :
    (add_not_part_click s).not_chunks.length = s.not_chunks.length + 1 := by
  rw [add_not_part_click_not_chunks]
  cases hL : (addClass_first s.not_chunks).getLast? with
  | none =>
    rw [List.getLast?_eq_none_iff] at hL
    have := congrArg List.length hL
    rw [length_addClass_first, List.length_nil] at this
    omega
  | some lastC =>
    rw [List.length_append, length_addClass_first]
    rfl

theorem okSize1_add_query {s : FormState} (hne : 1 ≤ s.query_chunks.length) :
    okSize1 (add_query_part_click s).query_chunks := by
  apply okSize1_of_length_ne_one
  rw [length_add_query_of_ne hne]
  omega

theorem okSize1_add_not {s : FormState} (hne : 1 ≤ s.not_chunks.length) :
    okSize1 (add_not_part_click s).not_chunks := by
  apply okSize1_of_length_ne_one
  rw [length_add_not_of_ne hne]
  omega

theorem step_minInv (s : FormState) (op : Op) (hop : okOpB s op = true)
    (h : MinInv s) : MinInv (step s op) := by
  obtain ⟨hlq, hln, hoq, hon⟩ := h
  cases op with
  | addQuery =>
    show MinInv (add_query_part_click s)
    refine ⟨?_, ?_, okSize1_add_query hlq, ?_⟩
    · rw [length_add_query_of_ne hlq]
      omega
    · rw [add_query_part_click_not_chunks]
      exact hln
    · rw [add_query_part_click_not_chunks]
      exact hon
  | addNot =>
    show MinInv (add_not_part_click s)
    refine ⟨?_, ?_, ?_, okSize1_add_not hln⟩
    · rw [add_not_part_click_query_chunks]
      exact hlq
    · rw [length_add_not_of_ne hln]
      omega
    · rw [add_not_part_click_query_chunks]
      exact hoq
  | removeQuery i =>
    have h2 : 2 ≤ s.query_chunks.length :=
      length_ge_two_of_removable hlq hoq (okOpB_removeQuery_elim hop)
    have hge := length_remove_by_id_ge s.query_chunks i
    show MinInv (remove_btn_click s i)
    refine ⟨?_, ?_, ?_, ?_⟩
    · rw [remove_btn_click_query_chunks]
      by_cases hl1 : (remove_by_id s.query_chunks i).length = 1
      · rw [if_pos hl1, length_removeClass_first]
        omega
      · rw [if_neg hl1]
        omega
    · rw [remove_btn_click_not_chunks]
      exact hln
    · rw [remove_btn_click_query_chunks]
      by_cases hl1 : (remove_by_id s.query_chunks i).length = 1
      · rw [if_pos hl1]
        exact okSize1_removeClass_first _
      · rw [if_neg hl1]
        exact okSize1_of_length_ne_one hl1
    · rw [remove_btn_click_not_chunks]
      exact hon
  | removeNot i =>
    have h2 : 2 ≤ s.not_chunks.length :=
      length_ge_two_of_removable hln hon (okOpB_removeNot_elim hop)
    have hge := length_remove_by_id_ge s.not_chunks i
    show MinInv (not_remove_btn_click s i)
    refine ⟨?_, ?_, ?_, ?_⟩
    · rw [not_remove_btn_click_query_chunks]
      exact hlq
    · rw [not_remove_btn_click_not_chunks]
      by_cases hl1 : (remove_by_id s.not_chunks i).length = 1
      · rw [if_pos hl1, length_removeClass_first]
        omega
      · rw [if_neg hl1]
        omega
    · rw [not_remove_btn_click_query_chunks]
      exact hoq
    · rw [not_remove_btn_click_not_chunks]
      by_cases hl1 : (remove_by_id s.not_chunks i).length = 1
      · rw [if_pos hl1]
        exact okSize1_removeClass_first _
      · rw [if_neg hl1]
        exact okSize1_of_length_ne_one hl1
  | setQueryValue i v =>
    show MinInv (edit_query_value s i v)
    refine ⟨?_, hln, okSize1_set_value_at i v hoq, hon⟩
    show 1 ≤ (set_value_at s.query_chunks i v).length
    rw [length_set_value_at]
    exact hlq
  | setQueryField i v =>
    show MinInv (edit_query_field s i v)
    refine ⟨?_, hln, okSize1_set_field_at i v hoq, hon⟩
    show 1 ≤ (set_field_at s.query_chunks i v).length
    rw [length_set_field_at]
    exact hlq
  | setNotValue i v =>
    show MinInv (edit_not_value s i v)
    refine ⟨hlq, ?_, hoq, okSize1_set_value_at i v hon⟩
    show 1 ≤ (set_value_at s.not_chunks i v).length
    rw [length_set_value_at]
    exact hln
  | setNotField i v =>
    show MinInv (edit_not_field s i v)
    refine ⟨hlq, ?_, hoq, okSize1_set_field_at i v hon⟩
    show 1 ≤ (set_field_at s.not_chunks i v).length
    rw [length_set_field_at]
    exact hln

theorem run_minInv : ∀ (ops : List Op) (s : FormState), okRunB s ops = true →
    MinInv s → MinInv (run s ops)
  | [], _, _, h => h
  | op :: ops, s, hops, h => by
    rw [okRunB, Bool.and_eq_true] at hops
    exact run_minInv ops (step s op) hops.2 (step_minInv s op hops.1 h)

theorem string_empty_append (t : String) : "" ++ t = t := by
  simp

theorem not_token_ne_empty (c : Chunk) : not_token c ≠ "" := by
  rw [not_token_eq]
  exact append_ne_empty_left (append_ne_empty_left (append_ne_empty_left (by decide)))

theorem include_join_eq (s : FormState) :
    join_sep (" " ++ s.operator ++ " ") (query_operands s.query_chunks) =
      includePart_spec s := by
  unfold includePart_spec query_operands
  exact congrArg _ (List.map_congr_left fun c _ => part_token_eq c)

theorem exclude_join_eq (s : FormState) :
    join_sep " " (not_operands s.not_chunks) = excludePart_spec s := by
  unfold excludePart_spec not_operands
  exact congrArg _ (List.map_congr_left fun c _ => not_token_eq c)

theorem not_operands_pos_iff (l : List Chunk) :
    0 < (not_operands l).length ↔ join_sep " " (not_operands l) ≠ "" := by
  cases hfl : l.filter (fun c => c.value ≠ "") with
  | nil =>
    rw [not_operands, hfl]
    simp
    rfl
  | cons c cs =>
    rw [not_operands, hfl]
    simp only [List.map_cons, List.length_cons]
    constructor
    · intro _
      exact join_sep_cons_ne_empty " " (not_token c) _ (not_token_ne_empty c)
    · intro _
      exact Nat.succ_pos _

theorem build_query_unfolded (s : FormState) :
    build_query s =
      if (not_operands s.not_chunks).length > 0 then
        (if join_sep (" " ++ s.operator ++ " ") (query_operands s.query_chunks) ≠ "" then
          join_sep (" " ++ s.operator ++ " ") (query_operands s.query_chunks) ++ " "
        else join_sep (" " ++ s.operator ++ " ") (query_operands s.query_chunks))
          ++ join_sep " " (not_operands s.not_chunks)
      else join_sep (" " ++ s.operator ++ " ") (query_operands s.query_chunks) := rfl

theorem build_query_eq_compile_spec (s : FormState) : build_query s = compile_spec s := by
  have hiff : 0 < (not_operands s.not_chunks).length ↔ excludePart_spec s ≠ "" := by
    rw [← exclude_join_eq s]
    exact not_operands_pos_iff s.not_chunks
  rw [build_query_unfolded, include_join_eq, exclude_join_eq]
  unfold compile_spec
  by_cases hp : 0 < (not_operands s.not_chunks).length
  · rw [if_pos hp, if_pos (hiff.mp hp)]
    by_cases hq : includePart_spec s ≠ ""
    · rw [if_pos hq, if_pos hq]
    · rw [if_neg hq, if_neg hq]
      push_neg at hq
      rw [hq, string_empty_append]
  · rw [if_neg hp, if_neg (fun hc => hp (hiff.mpr hc))]

theorem filter_value_eq_nil {l : List Chunk} (h : ∀ c ∈ l, c.value = "") :
    l.filter (fun c => c.value ≠ "") = [] := by
  rw [List.filter_eq_nil_iff]
  intro c hc
  simp [h c hc]

/-- C4: for every query state, the include part of the compiled query is the
include clauses with non-empty keyword, each formatted `<field>:<keyword>`,
joined with a single space, the combinator token, and a single space; when no
include clause has a non-empty keyword the include part is the empty
string. -/
theorem c4_include_part_formatting (s : FormState) :
    join_sep (" " ++ s.operator ++ " ") (query_operands s.query_chunks) = includePart_spec s
    ∧ ((∀ c ∈ s.query_chunks, c.value = "") →
        join_sep (" " ++ s.operator ++ " ") (query_operands s.query_chunks) = "") := by
  refine ⟨include_join_eq s, ?_⟩
  intro h
  rw [query_operands, filter_value_eq_nil h]
  rfl

/-- C4 witness: on the initial state (all keywords empty) the include part is
empty. -/
theorem c4_include_part_witness :
    (∀ c ∈ init_state.query_chunks, c.value = "") ∧
    join_sep (" " ++ init_state.operator ++ " ") (query_operands init_state.query_chunks) = "" :=
  ⟨by decide, (c4_include_part_formatting init_state).2 (by decide)⟩

/-- C5: for every query state and every combinator value, the exclude part of
the compiled query is the exclude clauses with non-empty keyword, each
formatted `-<field>:<keyword>`, joined with a single space; changing the
combinator changes neither the exclude operand list nor the exclude part. -/
theorem c5_exclude_part_formatting (s : FormState) (v : String) :
    join_sep " " (not_operands s.not_chunks) = excludePart_spec s
    ∧ not_operands ({ s with operator := v } : FormState).not_chunks =
        not_operands s.not_chunks
    ∧ excludePart_spec { s with operator := v } = excludePart_spec s
    ∧ join_sep " " (not_operands ({ s with operator := v } : FormState).not_chunks) =
        join_sep " " (not_operands s.not_chunks) :=
  ⟨exclude_join_eq s, rfl, rfl, rfl⟩

/-- C6: for every query state, `build_query` produces exactly the include
part, followed (when the exclude part is non-empty) by a single separating
space if the include part is non-empty and then the exclude part; when the
include part is empty and the exclude part is not, the output is exactly the
exclude part with no leading space.  The handlers write this value into
`#id_q` with `val(...)`, overwriting the field. -/
theorem c6_output_assembly (s : FormState) :
    build_query s =
      if excludePart_spec s ≠ "" then
        (if includePart_spec s ≠ "" then includePart_spec s ++ " " ++ excludePart_spec s
         else excludePart_spec s)
      else includePart_spec s := by
  rw [build_query_eq_compile_spec]
  rfl

/-- C9: the query compiler is a total function of the query state (the
embedding is a plain function, mirroring straight-line string code that
cannot throw), and on a state in which every clause of both collections has
an empty keyword it returns the empty string. -/
theorem c9_empty_state_compiles_empty (s : FormState)
    (hq : ∀ c ∈ s.query_chunks, c.value = "")
    (hn : ∀ c ∈ s.not_chunks, c.value = "") :
    build_query s = "" := by
  rw [build_query_unfolded, query_operands, not_operands,
    filter_value_eq_nil hq, filter_value_eq_nil hn]
  rfl

/-- C9 witness: the initial state (one include and one exclude clause, both
with empty keyword) compiles to the empty string. -/
theorem c9_empty_witness : build_query init_state = "" :=
  c9_empty_state_compiles_empty init_state (by decide) (by decide)

/-- C10: for every query state, an append on either collection leaves `#id_q`
unchanged (the add handlers never invoke `build_query`), and the appended
clause has an empty keyword, so the compiler's output on the new state equals
its output on the old state: even a recompilation would not change the
field. -/
theorem c10_append_frame_effect (s : FormState) :
    (add_query_part_click s).q = s.q ∧ (add_not_part_click s).q = s.q
    ∧ build_query (add_query_part_click s) = build_query s
    ∧ build_query (add_not_part_click s) = build_query s :=
  ⟨add_query_part_click_q s, add_not_part_click_q s,
    build_query_add_query s, build_query_add_not s⟩

/-- C1 counterexample: the trace append-then-remove (sizes 1 to 2 to 1, never
below 1) leaves the single include clause with embedded index 1, not the
dense sequence `[0]`: the remove handler never renumbers the surviving
rows. -/
theorem c1_density_counterexample :
    (run init_state [Op.addQuery]).query_chunks.length = 2 ∧
    (run init_state [Op.addQuery, Op.removeQuery 0]).query_chunks.length = 1 ∧
    (run init_state [Op.addQuery, Op.removeQuery 0]).query_chunks.map (fun c => c.idx) = [1] ∧
    (run init_state [Op.addQuery, Op.removeQuery 0]).query_chunks.map (fun c => c.idx) ≠
      List.range (run init_state [Op.addQuery, Op.removeQuery 0]).query_chunks.length := by
  decide

/-- C1 (amended): after every sequence of operations, each collection's
embedded indices are strictly increasing in display order (distinct, no
duplicates), and they are exactly `0..length-1` whenever the sequence contains
no removal: appends extend a dense collection densely, but `removeAt` never
renumbers, so a removal can leave a permanent gap. -/
theorem c1_index_order_after_ops (ops : List Op) :
    (sortedIdx (run init_state ops).query_chunks ∧
      sortedIdx (run init_state ops).not_chunks)
    ∧ (hasRemove ops = false →
        denseIdx (run init_state ops).query_chunks ∧
          denseIdx (run init_state ops).not_chunks) := by
  constructor
  · exact run_sortedInv ops init_state ⟨by decide, by decide⟩
  · intro h
    have hd := run_denseInv ops init_state h ⟨by decide, by decide, by decide, by decide⟩
    exact ⟨hd.1, hd.2.1⟩

/-- C1 witness: a single append yields a removal-free trace whose collections
are sorted and dense. -/
theorem c1_index_order_witness :
    (sortedIdx (run init_state [Op.addQuery]).query_chunks ∧
      sortedIdx (run init_state [Op.addQuery]).not_chunks) ∧
    hasRemove [Op.addQuery] = false ∧
    denseIdx (run init_state [Op.addQuery]).query_chunks :=
  ⟨(c1_index_order_after_ops [Op.addQuery]).1, by decide,
    ((c1_index_order_after_ops [Op.addQuery]).2 (by decide)).1⟩

/-- C2 counterexample: the remove handler performs no size check: invoked on
the initial include collection of size 1 it deletes the sole clause and the
collection reaches size 0. -/
theorem c2_remove_last_counterexample :
    init_state.query_chunks.length = 1 ∧
    (remove_btn_click init_state 0).query_chunks.length = 0 := by
  decide

/-- C2 (amended): the remove handlers delete unconditionally, so a forced
invocation on a size-1 collection empties it; the minimum-size protection
lives in the `removable` class discipline instead: the handlers keep a size-1
collection's sole row unmarked, the UI exposes remove triggers only on marked
rows, and along every trace whose removals go through exposed triggers
(`okRunB`) both collections always keep at least one clause. -/
theorem c2_min_size_under_removable_discipline (ops : List Op)
    (h : okRunB init_state ops = true) :
    1 ≤ (run init_state ops).query_chunks.length ∧
    1 ≤ (run init_state ops).not_chunks.length := by
  have hm := run_minInv ops init_state h ⟨by decide, by decide, by decide, by decide⟩
  exact ⟨hm.1, hm.2.1⟩

/-- C2 witness: the guarded trace append-then-remove keeps both collections
non-empty. -/
theorem c2_min_size_witness :
    okRunB init_state [Op.addQuery, Op.removeQuery 0] = true ∧
    1 ≤ (run init_state [Op.addQuery, Op.removeQuery 0]).query_chunks.length :=
  ⟨by decide,
    (c2_min_size_under_removable_discipline [Op.addQuery, Op.removeQuery 0] (by decide)).1⟩

/-- C3 counterexample: removing an exclude clause does not recompile.  After
appending an exclude row, typing `x` into it (which compiles `-subject:x`
into `#id_q`) and removing that row through its exposed trigger, the field
still holds `-subject:x` while the compiler's output on the current state is
empty: the compiled-query field is stale. -/
theorem c3_stale_after_not_remove :
    (run init_state [Op.addNot, Op.setNotValue 1 "x", Op.removeNot 1]).q = "-subject:x" ∧
    build_query (run init_state [Op.addNot, Op.setNotValue 1 "x", Op.removeNot 1]) = "" ∧
    (run init_state [Op.addNot, Op.setNotValue 1 "x", Op.removeNot 1]).q ≠
      build_query (run init_state [Op.addNot, Op.setNotValue 1 "x", Op.removeNot 1]) := by
  decide

/-- C3 (amended): the compiled-query field is recomputed by every include-side
removal and by every keyword/field edit on either side; the append handlers do
not invoke the compiler but preserve synchronisation (the new clause is
empty); the exclude-side remove handler neither recompiles nor preserves
synchronisation in general: it leaves `#id_q` untouched. -/
theorem c3_recompute_coverage :
    (∀ (s : FormState) (i : Nat),
      (remove_btn_click s i).q = build_query (remove_btn_click s i))
    ∧ (∀ (s : FormState) (i : Nat) (v : String),
        (edit_query_value s i v).q = build_query (edit_query_value s i v)
        ∧ (edit_query_field s i v).q = build_query (edit_query_field s i v)
        ∧ (edit_not_value s i v).q = build_query (edit_not_value s i v)
        ∧ (edit_not_field s i v).q = build_query (edit_not_field s i v))
    ∧ (∀ s : FormState,
        (s.q = build_query s →
          (add_query_part_click s).q = build_query (add_query_part_click s))
        ∧ (s.q = build_query s →
          (add_not_part_click s).q = build_query (add_not_part_click s)))
    ∧ (∀ (s : FormState) (i : Nat), (not_remove_btn_click s i).q = s.q) := by
  refine ⟨fun s i => remove_btn_click_q_sync s i,
    fun s i v => ⟨edit_query_value_q_sync s i v, edit_query_field_q_sync s i v,
      edit_not_value_q_sync s i v, edit_not_field_q_sync s i v⟩,
    fun s => ⟨?_, ?_⟩,
    fun s i => not_remove_btn_click_q s i⟩
  · intro h
    rw [add_query_part_click_q, build_query_add_query]
    exact h
  · intro h
    rw [add_not_part_click_q, build_query_add_not]
    exact h

/-- C3 witness: on the initial state (which is in sync) an append keeps the
field in sync. -/
theorem c3_recompute_witness :
    init_state.q = build_query init_state ∧
    (add_query_part_click init_state).q = build_query (add_query_part_click init_state) :=
  ⟨by decide, (c3_recompute_coverage.2.2.1 init_state).1 (by decide)⟩

theorem getLast?_addClass_map_chunkData (l : List Chunk) :
    ((addClass_first l).getLast?).map chunkData = (l.getLast?).map chunkData := by
  rw [← List.getLast?_map, ← List.getLast?_map, map_chunkData_addClass_first]

theorem getLast?_addClass_map_idx (l : List Chunk) :
    ((addClass_first l).getLast?).map (fun c => c.idx) =
      (l.getLast?).map (fun c => c.idx) := by
  rw [← List.getLast?_map, ← List.getLast?_map, map_idx_addClass_first]

theorem addClass_getLast_of_getLast {l : List Chunk} {lastC : Chunk}
    (h : l.getLast? = some lastC) :
    ∃ c', (addClass_first l).getLast? = some c' ∧ c'.field = lastC.field
      ∧ c'.value = lastC.value ∧ c'.idx = lastC.idx := by
  cases hL : (addClass_first l).getLast? with
  | none =>
    have hc := getLast?_addClass_map_chunkData l
    rw [hL, h] at hc
    simp at hc
  | some c' =>
    have hc := getLast?_addClass_map_chunkData l
    have hi := getLast?_addClass_map_idx l
    rw [hL, h] at hc hi
    simp [chunkData, Prod.ext_iff] at hc
    simp at hi
    exact ⟨c', rfl, hc.1, hc.2, hi⟩

theorem length_pos_of_getLast?_some {l : List Chunk} {lastC : Chunk}
    (h : l.getLast? = some lastC) : 1 ≤ l.length := by
  cases l with
  | nil => simp at h
  | cons a as => simp

theorem getLast_idx_of_dense {l : List Chunk} {lastC : Chunk}
    (hd : denseIdx l) (h : l.getLast? = some lastC) : lastC.idx + 1 = l.length := by
  have hne := length_pos_of_getLast?_some h
  obtain ⟨m, hm⟩ : ∃ m, l.length = m + 1 := by
    cases hn : l.length with
    | zero => omega
    | succ m => exact ⟨m, rfl⟩
  have h1 : (l.map (fun c => c.idx)).getLast? = some lastC.idx := by
    rw [List.getLast?_map, h]
    rfl
  rw [hd, hm, List.range_succ, List.getLast?_concat] at h1
  have : lastC.idx = m := (Option.some.injEq _ _ ▸ h1).symm
  omega

/-- C7 counterexample: after append-then-remove the include collection has
length 1 but its surviving row carries index 1, so the next append clones it
into a row with index 2, not index 1 = length-before-append: the new index is
last-index-plus-one, not the pre-append length. -/
theorem c7_append_index_counterexample :
    (run init_state [Op.addQuery, Op.removeQuery 0]).query_chunks.length = 1 ∧
    ((run init_state [Op.addQuery, Op.removeQuery 0, Op.addQuery]).query_chunks.getLast?.map
      (fun c => c.idx)) = some 2 ∧
    (2 : Nat) ≠ (run init_state [Op.addQuery, Op.removeQuery 0]).query_chunks.length := by
  decide

/-- C7 (amended): on every non-empty collection, append adds exactly one new
clause at the end, with empty keyword, with the field of the clause that was
last before the append, and with index equal to that last clause's index plus
one — which equals the collection's length before the append exactly when the
collection was dense (for example when no removal has occurred). -/
theorem c7_append_shape :
    (∀ (s : FormState) (lastC : Chunk), s.query_chunks.getLast? = some lastC →
      (add_query_part_click s).query_chunks.length = s.query_chunks.length + 1
      ∧ (∃ newC, (add_query_part_click s).query_chunks.getLast? = some newC
          ∧ newC.value = "" ∧ newC.field = lastC.field ∧ newC.idx = lastC.idx + 1)
      ∧ (denseIdx s.query_chunks →
          (add_query_part_click s).query_chunks.getLast?.map (fun c => c.idx) =
            some s.query_chunks.length)
      ∧ (add_query_part_click s).not_chunks = s.not_chunks)
    ∧ (∀ (s : FormState) (lastC : Chunk), s.not_chunks.getLast? = some lastC →
      (add_not_part_click s).not_chunks.length = s.not_chunks.length + 1
      ∧ (∃ newC, (add_not_part_click s).not_chunks.getLast? = some newC
          ∧ newC.value = "" ∧ newC.field = lastC.field ∧ newC.idx = lastC.idx + 1)
      ∧ (denseIdx s.not_chunks →
          (add_not_part_click s).not_chunks.getLast?.map (fun c => c.idx) =
            some s.not_chunks.length)
      ∧ (add_not_part_click s).query_chunks = s.query_chunks) := by
  constructor
  · intro s lastC h
    have hne := length_pos_of_getLast?_some h
    obtain ⟨c', hL, hf, hv, hi⟩ := addClass_getLast_of_getLast h
    have hlast : (add_query_part_click s).query_chunks.getLast? =
        some (increment_ids { c' with value := "" }) := by
      rw [add_query_part_click_query_chunks, hL, List.getLast?_concat]
    refine ⟨length_add_query_of_ne hne,
      ⟨increment_ids { c' with value := "" }, hlast, rfl, ?_, ?_⟩, ?_,
      add_query_part_click_not_chunks s⟩
    · show c'.field = lastC.field
      exact hf
    · show c'.idx + 1 = lastC.idx + 1
      rw [hi]
    · intro hd
      rw [hlast]
      have := getLast_idx_of_dense hd h
      show some ((increment_ids { c' with value := "" }).idx) = some s.query_chunks.length
      simp only [increment_ids, hi]
      rw [this]
  · intro s lastC h
    have hne := length_pos_of_getLast?_some h
    obtain ⟨c', hL, hf, hv, hi⟩ := addClass_getLast_of_getLast h
    have hlast : (add_not_part_click s).not_chunks.getLast? =
        some (increment_ids { c' with value := "" }) := by
      rw [add_not_part_click_not_chunks, hL, List.getLast?_concat]
    refine ⟨length_add_not_of_ne hne,
      ⟨increment_ids { c' with value := "" }, hlast, rfl, ?_, ?_⟩, ?_,
      add_not_part_click_query_chunks s⟩
    · show c'.field = lastC.field
      exact hf
    · show c'.idx + 1 = lastC.idx + 1
      rw [hi]
    · intro hd
      rw [hlast]
      have := getLast_idx_of_dense hd h
      show some ((increment_ids { c' with value := "" }).idx) = some s.not_chunks.length
      simp only [increment_ids, hi]
      rw [this]

/-- C7 witness: appending to the dense initial include collection creates a
second clause with empty keyword, the inherited field and index 1 = length
before append. -/
theorem c7_append_witness :
    init_state.query_chunks.getLast? =
      some { idx := 0, field := "subject", value := "", removable := false } ∧
    (add_query_part_click init_state).query_chunks.length = 2 ∧
    (add_query_part_click init_state).query_chunks.getLast?.map (fun c => c.idx) = some 1 :=
  ⟨by decide,
    (c7_append_shape.1 init_state
      { idx := 0, field := "subject", value := "", removable := false } (by decide)).1,
    ((c7_append_shape.1 init_state
      { idx := 0, field := "subject", value := "", removable := false }
      (by decide)).2.2.1 (by decide))⟩

theorem chunk_removable_false_eq {c : Chunk} (h : c.removable = false) :
    ({ c with removable := false } : Chunk) = c := by
  cases c
  simp only at h
  rw [h]

theorem removeClass_first_of_okSize1 {l : List Chunk}
    (h1 : l.length = 1) (hok : okSize1 l) : removeClass_first l = l := by
  obtain ⟨a, ha⟩ := List.length_eq_one.mp h1
  subst ha
  have hr : a.removable = false := hok h1 a (List.mem_cons_self a [])
  show [({ a with removable := false } : Chunk)] = [a]
  rw [chunk_removable_false_eq hr]

/-- C8 counterexample: removal with an index not present in the collection is
not a complete no-op on the whole query state.  After the (reachable) trace
add-exclude, type `x`, remove-exclude — which leaves `#id_q` stale at
`-subject:x` — an include-side removal with the absent index 5 removes no
clause but rewrites `#id_q` with the recompiled (empty) query, changing the
state. -/
theorem c8_invalid_index_counterexample :
    (5 ∉ (run init_state [Op.addNot, Op.setNotValue 1 "x", Op.removeNot 1]).query_chunks.map
      (fun c => c.idx)) ∧
    (remove_btn_click (run init_state [Op.addNot, Op.setNotValue 1 "x", Op.removeNot 1]) 5).q
      ≠ (run init_state [Op.addNot, Op.setNotValue 1 "x", Op.removeNot 1]).q ∧
    remove_btn_click (run init_state [Op.addNot, Op.setNotValue 1 "x", Op.removeNot 1]) 5
      ≠ run init_state [Op.addNot, Op.setNotValue 1 "x", Op.removeNot 1] := by
  decide

/-- C8 (amended): removal with an absent index removes no clause and never
fails: clause data (index, field, keyword), the other collection and the
combinator are untouched on both sides.  The exclude-side handler also leaves
`#id_q` untouched, and is a complete no-op whenever no size-1 row is marked
`removable`; the include-side handler rewrites `#id_q` with the recompiled
query, so it is a complete no-op exactly on states whose field is already in
sync. -/
theorem c8_invalid_index_removal (s : FormState) (i : Nat) :
    (i ∉ s.query_chunks.map (fun c => c.idx) →
      ((remove_btn_click s i).query_chunks.map chunkData = s.query_chunks.map chunkData
       ∧ (remove_btn_click s i).not_chunks = s.not_chunks
       ∧ (remove_btn_click s i).operator = s.operator
       ∧ (remove_btn_click s i).q = build_query s
       ∧ (okSize1 s.query_chunks → s.q = build_query s → remove_btn_click s i = s)))
    ∧ (i ∉ s.not_chunks.map (fun c => c.idx) →
      ((not_remove_btn_click s i).query_chunks = s.query_chunks
       ∧ (not_remove_btn_click s i).not_chunks.map chunkData = s.not_chunks.map chunkData
       ∧ (not_remove_btn_click s i).q = s.q
       ∧ (okSize1 s.not_chunks → not_remove_btn_click s i = s))) := by
  constructor
  · intro h
    have hrem : remove_by_id s.query_chunks i = s.query_chunks :=
      remove_by_id_of_not_mem h
    have hqc : (remove_btn_click s i).query_chunks =
        if s.query_chunks.length = 1 then removeClass_first s.query_chunks
        else s.query_chunks := by
      rw [remove_btn_click_query_chunks, hrem]
    have hdata : (remove_btn_click s i).query_chunks.map chunkData =
        s.query_chunks.map chunkData := by
      rw [hqc]
      by_cases h1 : s.query_chunks.length = 1
      · rw [if_pos h1, map_chunkData_removeClass_first]
      · rw [if_neg h1]
    refine ⟨hdata, rfl, rfl, ?_, ?_⟩
    · rw [remove_btn_click_q_sync]
      exact build_query_congr hdata rfl rfl
    · intro hok hsync
      have hqc2 : (remove_btn_click s i).query_chunks = s.query_chunks := by
        rw [hqc]
        by_cases h1 : s.query_chunks.length = 1
        · rw [if_pos h1]
          exact removeClass_first_of_okSize1 h1 hok
        · rw [if_neg h1]
      have hq2 : (remove_btn_click s i).q = s.q := by
        rw [remove_btn_click_q_sync, build_query_congr hdata rfl rfl]
        exact hsync.symm
      calc remove_btn_click s i
          = (⟨(remove_btn_click s i).query_chunks, (remove_btn_click s i).not_chunks,
              (remove_btn_click s i).operator, (remove_btn_click s i).q⟩ : FormState) := rfl
        _ = (⟨s.query_chunks, s.not_chunks, s.operator, s.q⟩ : FormState) := by
            rw [hqc2, remove_btn_click_not_chunks, remove_btn_click_operator, hq2]
        _ = s := rfl
  · intro h
    have hrem : remove_by_id s.not_chunks i = s.not_chunks :=
      remove_by_id_of_not_mem h
    have hnc : (not_remove_btn_click s i).not_chunks =
        if s.not_chunks.length = 1 then removeClass_first s.not_chunks
        else s.not_chunks := by
      rw [not_remove_btn_click_not_chunks, hrem]
    have hdata : (not_remove_btn_click s i).not_chunks.map chunkData =
        s.not_chunks.map chunkData := by
      rw [hnc]
      by_cases h1 : s.not_chunks.length = 1
      · rw [if_pos h1, map_chunkData_removeClass_first]
      · rw [if_neg h1]
    refine ⟨rfl, hdata, rfl, ?_⟩
    intro hok
    have hnc2 : (not_remove_btn_click s i).not_chunks = s.not_chunks := by
      rw [hnc]
      by_cases h1 : s.not_chunks.length = 1
      · rw [if_pos h1]
        exact removeClass_first_of_okSize1 h1 hok
      · rw [if_neg h1]
    calc not_remove_btn_click s i
        = (⟨(not_remove_btn_click s i).query_chunks, (not_remove_btn_click s i).not_chunks,
            (not_remove_btn_click s i).operator, (not_remove_btn_click s i).q⟩ : FormState) := rfl
      _ = (⟨s.query_chunks, s.not_chunks, s.operator, s.q⟩ : FormState) := by
          rw [hnc2, not_remove_btn_click_query_chunks, not_remove_btn_click_operator,
            not_remove_btn_click_q]
      _ = s := rfl

/-- C8 witness: on the initial (in-sync) state, removal with the absent index
7 is a complete no-op on either side. -/
theorem c8_invalid_index_witness :
    (7 ∉ init_state.query_chunks.map (fun c => c.idx)) ∧
    remove_btn_click init_state 7 = init_state ∧
    not_remove_btn_click init_state 7 = init_state :=
  ⟨by decide,
    ((c8_invalid_index_removal init_state 7).1 (by decide)).2.2.2.2 (by decide) (by decide),
    ((c8_invalid_index_removal init_state 7).2 (by decide)).2.2.2 (by decide)⟩
